import Mathlib

/-!
Shallow embedding of the pizboat control-link core: the smoothing buffer and
signal conditioner, the vehicle-side controller session (boat_serv.py) and the
handheld-side remote loop (remote_serv.py).  Python floats are modelled as
exact rationals, Python ints as integers; fallible operations return Option.
Logging, wall-clock timestamps and the OLED rendering are outside the model.
-/

namespace PizSpec

/-! ### Smoothing buffer: class CircBuffer, identical in both source files -/

structure CircBuffer where
  buffer : List ℤ
  size : ℕ
  max_size : ℕ
  index : ℕ
  deriving Repr, DecidableEq

namespace CircBuffer

/-- Constructor `CircBuffer.__init__`: a zero-filled list of length `max_size`. -/
def init (max_size : ℕ) : CircBuffer :=
  { buffer := List.replicate max_size 0, size := 0, max_size := max_size, index := 0 }

/-- Method `add`: write at `index`, advance `index` modulo `max_size`, grow `size`
until it saturates at `max_size`. -/
def add (c : CircBuffer) (value : ℤ) : CircBuffer :=
  { c with
    buffer := c.buffer.set c.index value
    index := (c.index + 1) % c.max_size
    size := if c.size < c.max_size then c.size + 1 else c.size }

/-- Method `add` together with the two run-time errors the Python statements could
raise: an IndexError from the slot assignment if `index` were out of bounds, and a
ZeroDivisionError from `% max_size` if `max_size` were `0`.  `none` models a raise. -/
def addChecked (c : CircBuffer) (value : ℤ) : Option CircBuffer :=
  if c.index < c.buffer.length ∧ 0 < c.max_size then some (c.add value) else none

/-- Method `average`: `0` on an empty buffer, else `sum(buffer[:size]) / size`. -/
def average (c : CircBuffer) : ℚ :=
  if c.size = 0 then 0 else ((c.buffer.take c.size).sum : ℚ) / (c.size : ℚ)

/-- Division guarded against ZeroDivisionError; `none` models a raise. -/
def qdiv (a : ℚ) (n : ℕ) : Option ℚ := if n = 0 then none else some (a / (n : ℚ))

/-- Method `average` with the division-by-zero hazard made explicit. -/
def averageChecked (c : CircBuffer) : Option ℚ :=
  if c.size = 0 then some 0 else qdiv ((c.buffer.take c.size).sum : ℚ) c.size

/-- Folding a whole sample history into the buffer, oldest first. -/
def addAll (c : CircBuffer) (vs : List ℤ) : CircBuffer := vs.foldl add c

/-- Sample history folded through `addChecked`: `none` as soon as one add raises. -/
def addAllChecked : CircBuffer → List ℤ → Option CircBuffer
  | c, [] => some c
  | c, v :: vs =>
    match c.addChecked v with
    | some c2 => addAllChecked c2 vs
    | none => none

/-- Closed form of the ring contents after the sample history `h` has been added
to an initially empty buffer of capacity `N`: while the buffer is filling it is
the history padded with zeros; once full it is a rotation of the last `N` samples. -/
def ringOf (N : ℕ) (h : List ℤ) : List ℤ :=
  if h.length < N then h ++ List.replicate (N - h.length) 0
  else
    (h.drop (h.length - N)).drop (N - h.length % N) ++
      (h.drop (h.length - N)).take (N - h.length % N)

/-- Closed form of the whole buffer state after the sample history `h`. -/
def stateOf (N : ℕ) (h : List ℤ) : CircBuffer :=
  { buffer := ringOf N h, size := min h.length N, max_size := N, index := h.length % N }

end CircBuffer

/-! ### Signal conditioner: class Actuator in boat_serv.py -/

/-- Python `int()` applied to a (here: exact rational) float value: truncation
toward zero. -/
def pyTrunc (q : ℚ) : ℤ := if 0 ≤ q then ⌊q⌋ else ⌈q⌉

/-- An actuator's pin attribute: a single GPIO pin or a list of pins. -/
inductive PinSpec where
  | single (p : ℕ)
  | multi (ps : List ℕ)
  deriving Repr, DecidableEq

structure Actuator where
  name : String
  pin : PinSpec
  value_mid : ℤ
  value_range : ℤ
  dead_range : ℤ
  value_min : ℚ
  value_max : ℚ
  value : ℤ
  deriving Repr, DecidableEq

/-- Constructor `Actuator.__init__`: `value_min`/`value_max` are float half-range
bounds, the initial command value is the midpoint. -/
def Actuator.init (name : String) (pin : PinSpec)
    (value_mid value_range dead_range : ℤ) : Actuator :=
  { name := name, pin := pin, value_mid := value_mid, value_range := value_range,
    dead_range := dead_range,
    value_min := (value_mid : ℚ) - (value_range : ℚ) / 2,
    value_max := (value_mid : ℚ) + (value_range : ℚ) / 2,
    value := value_mid }

/-- Method `Actuator.updateValue`, given the raw channel value `r` already looked
up in the JSON message: `value = int(value_min + (r / 65536) * value_range)`,
then the dead-zone collapse to `value_mid`.  Only the `value` field changes. -/
def Actuator.updateValue (a : Actuator) (r : ℤ) : Actuator :=
  let raw : ℚ := (r : ℚ) / 65536
  let v : ℤ := pyTrunc (a.value_min + raw * (a.value_range : ℚ))
  if |v - a.value_mid| < a.dead_range then { a with value := a.value_mid }
  else { a with value := v }

/-- The conditioning computation of `Actuator.updateValue` as a standalone
function of the actuator spec `(mid, range, dead)` and the raw value `r`. -/
def conditionedValue (mid range dead r : ℤ) : ℤ :=
  let v := pyTrunc ((mid : ℚ) - (range : ℚ) / 2 + (r : ℚ) / 65536 * (range : ℚ))
  if |v - mid| < dead then mid else v

/-- Modelled from the spec words for the refinement comparison in claim C1:
the same conditioning pipeline but with the mathematical floor in place of
Python `int()` truncation. -/
def specFloorValue (mid range dead r : ℤ) : ℤ :=
  let v := ⌊(mid : ℚ) - (range : ℚ) / 2 + (r : ℚ) / 65536 * (range : ℚ)⌋
  if |v - mid| < dead then mid else v

/-! ### Controller session: class PizBoat in boat_serv.py -/

/-- An inbound JSON object: each declared channel key is present or absent,
plus the `ts` key.  Absent key lookups model Python `KeyError`. -/
structure ControlMessage where
  safran : Option ℤ
  moteur : Option ℤ
  ecoute_gv : Option ℤ
  ecoute_foc : Option ℤ
  ts : Option ℤ
  deriving Repr, DecidableEq

/-- Dictionary lookup `json[name]` for the channel keys. -/
def ControlMessage.get (m : ControlMessage) (name : String) : Option ℤ :=
  if name = "safran" then m.safran
  else if name = "moteur" then m.moteur
  else if name = "ecoute_gv" then m.ecoute_gv
  else if name = "ecoute_foc" then m.ecoute_foc
  else none

/-- Method `Actuator.updateValue` on a message: `json[self.name]` then the update;
`none` models the `KeyError` raised on a missing channel. -/
def Actuator.updateValueM (a : Actuator) (m : ControlMessage) : Option Actuator :=
  (m.get a.name).map a.updateValue

/-- One `set_servo_pulsewidth` write (or the loop of writes for a pin list). -/
def pinWrite (hw : ℕ → ℤ) (pin : PinSpec) (val : ℤ) : ℕ → ℤ :=
  match pin with
  | .single p => Function.update hw p val
  | .multi ps => ps.foldl (fun h p => Function.update h p val) hw

/-- Method `PizBoat.updatePwm`: drive the actuator's pin(s) with its value. -/
def updatePwm (hw : ℕ → ℤ) (a : Actuator) : ℕ → ℤ := pinWrite hw a.pin a.value

/-- Vehicle-side state: the four actuator objects and the servo pulse widths
last written to each GPIO pin. -/
structure BoatState where
  safran : Actuator
  moteur : Actuator
  ecoute_gv : Actuator
  ecoute_foc : Actuator
  hw : ℕ → ℤ

/-- The four class-level actuators of PizBoat. -/
def safran0 : Actuator := Actuator.init "safran" (.multi [23, 24]) 1450 600 30

def moteur0 : Actuator := Actuator.init "moteur" (.single 25) 1400 800 50

def ecouteGv0 : Actuator := Actuator.init "ecoute_gv" (.single 22) 1450 1000 50

def ecouteFoc0 : Actuator := Actuator.init "ecoute_foc" (.single 27) 1450 1000 50

/-- Pulse widths before `PizBoat.__init__` runs (no servo pulses yet). -/
def initHw : ℕ → ℤ := fun _ => 0

/-- State after `PizBoat.__init__`: every pin driven to its actuator's midpoint,
in source order (safran's pins first, then moteur, ecoute_gv, ecoute_foc). -/
def initBoat : BoatState :=
  { safran := safran0, moteur := moteur0,
    ecoute_gv := ecouteGv0, ecoute_foc := ecouteFoc0,
    hw := updatePwm (updatePwm (updatePwm (updatePwm initHw safran0) moteur0)
      ecouteGv0) ecouteFoc0 }

/-- One step of the actuator loop in `handleClient`, for the safran slot:
update from the message, then drive the hardware; `none` is the `KeyError`. -/
def stepSafran (st : BoatState) (m : ControlMessage) : Option BoatState :=
  (st.safran.updateValueM m).map fun a =>
    { st with safran := a, hw := updatePwm st.hw a }

/-- The same step for the moteur slot. -/
def stepMoteur (st : BoatState) (m : ControlMessage) : Option BoatState :=
  (st.moteur.updateValueM m).map fun a =>
    { st with moteur := a, hw := updatePwm st.hw a }

/-- The same step for the ecoute_gv slot. -/
def stepGv (st : BoatState) (m : ControlMessage) : Option BoatState :=
  (st.ecoute_gv.updateValueM m).map fun a =>
    { st with ecoute_gv := a, hw := updatePwm st.hw a }

/-- The same step for the ecoute_foc slot. -/
def stepFoc (st : BoatState) (m : ControlMessage) : Option BoatState :=
  (st.ecoute_foc.updateValueM m).map fun a =>
    { st with ecoute_foc := a, hw := updatePwm st.hw a }

/-- The body of `handleClient` for one decoded message: the actuator loop in its
fixed order (safran, moteur, ecoute_gv, ecoute_foc), then the `ts` lookup.
Returns the state as left by the statements that did run, and `some ts` when the
message was fully processed (so the acknowledgement echoing `ts` is sent), or
`none` when a `KeyError` aborted it (no acknowledgement). -/
def handleMsg (st : BoatState) (m : ControlMessage) : BoatState × Option ℤ :=
  match stepSafran st m with
  | none => (st, none)
  | some st1 =>
    match stepMoteur st1 m with
    | none => (st1, none)
    | some st2 =>
      match stepGv st2 m with
      | none => (st2, none)
      | some st3 =>
        match stepFoc st3 m with
        | none => (st3, none)
        | some st4 =>
          match m.ts with
          | none => (st4, none)
          | some ts => (st4, some ts)

/-- One observable event of a session iteration: the select timeout, an empty
read (peer closed), a socket error raised by recv or send (peer reset), a
payload that fails to parse as JSON, or a decoded message. -/
inductive Ev where
  | notReady
  | empty
  | sockErr
  | badParse
  | msg (m : ControlMessage)
  deriving Repr, DecidableEq

/-- How `handleClient` relinquishes control: `brk` is a `break` out of the loop
(function returns normally), `exn` is an exception propagating out of it
(the `except` clause closes the client and re-raises), `ranOut` means the
supplied event list ended while the loop would still be running. -/
inductive SessionOutcome where
  | brk
  | exn
  | ranOut
  deriving Repr, DecidableEq

/-- Method `PizBoat.handleClient` over a list of session events: returns the
final boat state, the list of `ts` values echoed in acknowledgements, and how
the loop ended. -/
def handleClient (st : BoatState) : List Ev → BoatState × List ℤ × SessionOutcome
  | [] => (st, [], .ranOut)
  | .notReady :: _ => (st, [], .brk)
  | .empty :: _ => (st, [], .brk)
  | .sockErr :: _ => (st, [], .exn)
  | .badParse :: _ => (st, [], .exn)
  | .msg m :: rest =>
    match handleMsg st m with
    | (st2, some ts) =>
      let r := handleClient st2 rest
      (r.1, ts :: r.2.1, r.2.2)
    | (st2, none) => (st2, [], .exn)

/-- The statement at the top of `PizBoat.run`'s accept loop: re-drive only the
moteur pin to the moteur midpoint ("Reinit boat engine"). -/
def reinitEngine (st : BoatState) : BoatState :=
  { st with hw := pinWrite st.hw st.moteur.pin st.moteur.value_mid }

/-- The boat state at the moment `run` accepts the next client, given one
session's events: the engine-reinit line runs after a session that ended with
`break`; a session ending in an exception propagates out of `run` (no next
accept), and an exhausted event list means the session is still in progress. -/
def nextAcceptState (st : BoatState) (evs : List Ev) : Option BoatState :=
  match handleClient st evs with
  | (st2, _, SessionOutcome.brk) => some (reinitEngine st2)
  | _ => none

/-- The state produced by the actuator loop of `handleClient` when every channel
is present: each actuator updated and driven in source order. -/
def stAfterMsg (st : BoatState) (rs rm rg rf : ℤ) : BoatState :=
  let a1 := st.safran.updateValue rs
  let w1 := updatePwm st.hw a1
  let a2 := st.moteur.updateValue rm
  let w2 := updatePwm w1 a2
  let a3 := st.ecoute_gv.updateValue rg
  let w3 := updatePwm w2 a3
  let a4 := st.ecoute_foc.updateValue rf
  let w4 := updatePwm w3 a4
  { safran := a1, moteur := a2, ecoute_gv := a3, ecoute_foc := a4, hw := w4 }

/-- States whose actuator objects carry the configured channel names. -/
def BoatState.wellNamed (st : BoatState) : Prop :=
  st.safran.name = "safran" ∧ st.moteur.name = "moteur" ∧
    st.ecoute_gv.name = "ecoute_gv" ∧ st.ecoute_foc.name = "ecoute_foc"

/-! ### Remote loop: class PizRemote in remote_serv.py -/

/-- Class attribute `leds_pins`. -/
def leds_pins : List ℕ := [16, 20, 21, 26, 19, 13, 6, 5]

/-- Method `PizRemote.readChannel` as a function of the two SPI response bytes
`adc[1]` and `adc[2]`: `(((adc[1] & 3) << 8) + adc[2]) * 64`. -/
def readChannel (a1 a2 : ℕ) : ℕ := (((a1 &&& 3) <<< 8) + a2) * 64

/-- The LED threshold level `lv = (linkQuality - 30) * 8 / 40` of
`updateLinkQuality`. -/
def ledLevel (linkQuality : ℤ) : ℚ := ((linkQuality : ℚ) - 30) * 8 / 40

/-- The LED pattern written by `updateLinkQuality`: position `p` is lit exactly
when `p < lv`. -/
def ledsFor (linkQuality : ℤ) : List Bool :=
  (List.range leds_pins.length).map fun p : ℕ => decide ((p : ℚ) < ledLevel linkQuality)

/-- Number of indicator LEDs lit for a raw link-quality value. -/
def litCount (linkQuality : ℤ) : ℕ := (ledsFor linkQuality).count true

/-- The shared telemetry snapshot (class ScreenStats). -/
structure ScreenStats where
  linkQuality : ℤ
  safran_val : ℤ
  moteur_val : ℤ
  deriving Repr, DecidableEq

/-- Handheld-side state: connection flag, running link-quality extrema, packet
and connect counters, the levels written to the feedback LEDs (in `leds_pins`
order), and the display snapshot. -/
structure RemoteState where
  isConnected : Bool
  linkQualityMin : ℤ
  linkQualityMax : ℤ
  nbPackets : ℕ
  nbConnects : ℕ
  leds : List Bool
  screenStats : ScreenStats
  deriving Repr, DecidableEq

/-- State as left by `PizRemote.__init__` and the class attributes: disconnected,
extrema seeded at `min=100`, `max=0`, all LEDs off after the startup animation. -/
def initRemote : RemoteState :=
  { isConnected := false, linkQualityMin := 100, linkQualityMax := 0,
    nbPackets := 0, nbConnects := 0,
    leds := List.replicate leds_pins.length false,
    screenStats := { linkQuality := 0, safran_val := 0, moteur_val := 0 } }

/-- Method `PizRemote.updateLinkQuality`: fold the value into the running
min/max unconditionally, then rewrite the LED bar against the threshold `lv`. -/
def updateLinkQuality (st : RemoteState) (linkQuality : ℤ) : RemoteState :=
  { st with
    linkQualityMin := min st.linkQualityMin linkQuality
    linkQualityMax := max st.linkQualityMax linkQuality
    leds := ledsFor linkQuality }

/-- The ack-wait phase of one `doLoop` call, as observed on the socket:
select times out, recv returns zero bytes, the payload fails to decode as JSON,
the earlier send raises a connection reset, or a well-formed ack arrives. -/
inductive AckEvent where
  | noReady
  | emptyAck
  | badJson
  | sendErr
  | ack (ts linkQuality : ℤ)
  deriving Repr, DecidableEq

/-- Environment inputs consumed by one `doLoop` call: the SPI bytes of the three
channel reads, the send timestamp, the ack-phase event, and (used only when a
reconnect is needed first) the number of failed connect attempts before the one
that succeeds. -/
structure LoopInput where
  trimA : ℕ
  trimB : ℕ
  safA : ℕ
  safB : ℕ
  motA : ℕ
  motB : ℕ
  tsNow : ℤ
  ackEv : AckEvent
  attempts : ℕ
  deriving Repr, DecidableEq

/-- The JSON control message `doLoop` sends: the trim-adjusted safran value
`safran_raw + (safran_trim_raw - (1 << 15))`, the moteur value, and `ts`. -/
structure SentMsg where
  safran : ℤ
  moteur : ℤ
  ts : ℤ
  deriving Repr, DecidableEq

/-- The message built from one round of channel reads. -/
def builtMsg (inp : LoopInput) : SentMsg :=
  let safran_trim_raw : ℤ := readChannel inp.trimA inp.trimB
  let safran_raw : ℤ := readChannel inp.safA inp.safB
  let moteur_raw : ℤ := readChannel inp.motA inp.motB
  { safran := safran_raw + (safran_trim_raw - 2 ^ 15),
    moteur := moteur_raw, ts := inp.tsNow }

/-- Python exceptions distinguished by `PizRemote.run`'s handlers. -/
inductive PyExn where
  | jsonDecode
  | connReset
  deriving Repr, DecidableEq

/-- How one `doLoop` call ends: normal return or a raised exception. -/
inductive DoLoopResult where
  | ok
  | exn (e : PyExn)
  deriving Repr, DecidableEq

/-- Write to the first feedback LED (pin `leds_pins[0]`). -/
def setLed0 (leds : List Bool) (b : Bool) : List Bool := leds.set 0 b

/-- Method `PizRemote.doLoop`: read the channels, turn LED 0 off, send the
message, count the packet, then wait for the ack.  A timeout or empty read
clears `isConnected` and returns; undecodable ack payloads re-raise the JSON
error; a well-formed ack feeds `updateLinkQuality` and the display snapshot.
Returns the state, the message that went out (if the send happened), and how
the call ended. -/
def doLoop (st : RemoteState) (inp : LoopInput) :
    RemoteState × Option SentMsg × DoLoopResult :=
  let msg := builtMsg inp
  let st1 := { st with leds := setLed0 st.leds false }
  let st2 := { st1 with nbPackets := st1.nbPackets + 1 }
  match inp.ackEv with
  | .sendErr => (st1, none, .exn .connReset)
  | .noReady => ({ st2 with isConnected := false }, some msg, .ok)
  | .emptyAck => ({ st2 with isConnected := false }, some msg, .ok)
  | .badJson => (st2, some msg, .exn .jsonDecode)
  | .ack _ lq =>
    let st3 := updateLinkQuality st2 lq
    ({ st3 with
        screenStats :=
          { linkQuality := lq, safran_val := msg.safran, moteur_val := msg.moteur } },
      some msg, .ok)

/-- The reconnect phase of `PizRemote.run`, entered while `isConnected` is
false, summarised at its exit: after `attempts` failed tries (which only redraw
the searching animation and sleep) a connect succeeds, the connect counter
increments, and LED 0 is forced on over the last animation frame. -/
def connectStep (st : RemoteState) (attempts : ℕ) : RemoteState :=
  { st with
    isConnected := true
    nbConnects := st.nbConnects + 1
    leds := setLed0
      ((List.range leds_pins.length).map fun p => decide (p = attempts % leds_pins.length))
      true }

/-- Result of one iteration of `PizRemote.run`'s outer loop: the loop continues
with a new state, or the process dies on a re-raised exception. -/
inductive RunOutcome where
  | cont (st : RemoteState)
  | fatal (st : RemoteState)
  deriving Repr, DecidableEq

/-- The exception handling of `PizRemote.run` around one `doLoop` call:
ConnectionResetError/BrokenPipeError clears `isConnected` and continues; any
other exception is re-raised and kills the process. -/
def runStep (st : RemoteState) (inp : LoopInput) : RunOutcome :=
  match doLoop st inp with
  | (st2, _, .ok) => .cont st2
  | (st2, _, .exn .connReset) => .cont { st2 with isConnected := false }
  | (st2, _, .exn .jsonDecode) => .fatal st2

/-- One full iteration of `PizRemote.run`: reconnect first when disconnected,
then the guarded `doLoop` call. -/
def runIter (st : RemoteState) (inp : LoopInput) : RunOutcome :=
  runStep (if st.isConnected then st else connectStep st inp.attempts) inp

/-- Method `PizRemote.run` over a list of iteration inputs, stopping early if an
iteration is fatal. -/
def runTrace : RemoteState → List LoopInput → RunOutcome
  | st, [] => .cont st
  | st, inp :: rest =>
    match runIter st inp with
    | .cont st2 => runTrace st2 rest
    | .fatal st2 => .fatal st2

/-- The state carried by a run outcome. -/
def outState : RunOutcome → RemoteState
  | .cont st => st
  | .fatal st => st

/-- A concrete iteration input with all ADC bytes zero, used as a test fixture. -/
def sampleInput (ev : AckEvent) : LoopInput :=
  { trimA := 0, trimB := 0, safA := 0, safB := 0, motA := 0, motB := 0,
    tsNow := 0, ackEv := ev, attempts := 0 }

/-- Whether a run outcome is the death of the process. -/
def isFatal : RunOutcome → Bool
  | .cont _ => false
  | .fatal _ => true

/-! ## Helper lemmas for the circular buffer -/

theorem list_set_at_append (xs ys : List ℤ) (v : ℤ) :
    (xs ++ ys).set xs.length v = xs ++ ys.set 0 v := by
  rw [List.set_append_right xs.length v le_rfl, Nat.sub_self]

theorem rot_set (tl : List ℤ) (a v : ℤ) (m : ℕ) :
    (tl.drop m ++ (a :: tl).take (m + 1)).set (tl.drop m).length v =
      tl.drop m ++ v :: tl.take m := by
  rw [list_set_at_append, List.take_succ_cons]
  rfl

theorem ringOf_length (N : ℕ) (hN : 1 ≤ N) (h : List ℤ) :
    (CircBuffer.ringOf N h).length = N := by
  unfold CircBuffer.ringOf
  by_cases hk : h.length < N
  · simp only [if_pos hk, List.length_append, List.length_replicate]
    omega
  · have hr : h.length % N < N := Nat.mod_lt _ (by omega)
    simp only [if_neg hk, List.length_append, List.length_drop, List.length_take]
    omega

theorem ringOf_set (N : ℕ) (hN : 1 ≤ N) (h : List ℤ) (v : ℤ) :
    (CircBuffer.ringOf N h).set (h.length % N) v = CircBuffer.ringOf N (h ++ [v]) := by
  rcases Nat.lt_trichotomy (h.length + 1) N with hlt | heq | hgt
  · -- still filling: the write lands on the first zero pad slot
    have hk : h.length < N := by omega
    have hrep : List.replicate (N - h.length) (0 : ℤ) =
        0 :: List.replicate (N - h.length - 1) 0 := by
      rw [← List.replicate_succ]
      congr 1
      omega
    unfold CircBuffer.ringOf
    rw [if_pos hk, if_pos (by simp only [List.length_append, List.length_singleton]; omega)]
    rw [Nat.mod_eq_of_lt hk, hrep, list_set_at_append]
    have hcnt : N - (h ++ [v]).length = N - h.length - 1 := by
      simp only [List.length_append, List.length_singleton]
      omega
    rw [hcnt, List.append_assoc]
    rfl
  · -- the write fills the last free slot: the buffer becomes exactly the history
    have hk : h.length < N := by omega
    have hrep : List.replicate (N - h.length) (0 : ℤ) = [0] := by
      have hone : N - h.length = 1 := by omega
      rw [hone]
      rfl
    have hlen1 : (h ++ [v]).length = N := by
      simp only [List.length_append, List.length_singleton]
      omega
    unfold CircBuffer.ringOf
    rw [if_pos hk, if_neg (by omega)]
    rw [Nat.mod_eq_of_lt hk, hrep, list_set_at_append]
    rw [hlen1, Nat.sub_self, List.drop_zero, Nat.mod_self, Nat.sub_zero]
    rw [List.drop_of_length_le (le_of_eq hlen1), List.take_of_length_le (le_of_eq hlen1)]
    rfl
  · -- buffer already full: the write overwrites the oldest sample
    have hk : N ≤ h.length := by omega
    have hrN : h.length % N < N := Nat.mod_lt _ (by omega)
    set r := h.length % N with hrdef
    set m := N - r - 1 with hmdef
    -- the last N samples, nonempty
    have htlen : (h.drop (h.length - N)).length = N := by
      rw [List.length_drop]
      omega
    obtain ⟨a, tl, hcons⟩ : ∃ a tl, h.drop (h.length - N) = a :: tl := by
      cases hd : h.drop (h.length - N) with
      | nil => rw [hd] at htlen; simp at htlen; omega
      | cons a tl => exact ⟨a, tl, rfl⟩
    have htllen : tl.length = N - 1 := by
      have hx := htlen
      rw [hcons] at hx
      simp only [List.length_cons] at hx
      omega
    -- left-hand side in rotation normal form
    have hform : CircBuffer.ringOf N h = tl.drop m ++ (a :: tl).take (m + 1) := by
      unfold CircBuffer.ringOf
      rw [if_neg (by omega), hcons, ← hrdef, (by omega : N - r = m + 1), List.drop_succ_cons]
    have hposn : r = (tl.drop m).length := by
      rw [List.length_drop]
      omega
    have hLHS : (CircBuffer.ringOf N h).set r v = tl.drop m ++ v :: tl.take m := by
      rw [hform]
      conv =>
        lhs
        rw [hposn]
      exact rot_set tl a v m
    -- the new last-N window drops the oldest sample and appends the new one
    have hdrop1 : (h ++ [v]).drop ((h ++ [v]).length - N) = tl ++ [v] := by
      have hlen1 : (h ++ [v]).length = h.length + 1 := by simp
      rw [hlen1, List.drop_append_eq_append_drop]
      have h1 : h.length + 1 - N - h.length = 0 := by omega
      have h2 : h.length + 1 - N = (h.length - N) + 1 := by omega
      rw [h1, h2, List.drop_zero, ← List.drop_drop, hcons]
      simp
    have hRHS : CircBuffer.ringOf N (h ++ [v]) =
        (tl ++ [v]).drop ((h ++ [v]).length % N |> (N - ·)) ++
          (tl ++ [v]).take ((h ++ [v]).length % N |> (N - ·)) := by
      unfold CircBuffer.ringOf
      rw [if_neg (by simp only [List.length_append, List.length_singleton]; omega), hdrop1]
    rw [hLHS, hRHS]
    rcases Nat.lt_or_ge (r + 1) N with hr1 | hr1
    · -- index advances without wrapping
      have hmod1 : (h ++ [v]).length % N = r + 1 := by
        simp only [List.length_append, List.length_singleton]
        rw [← Nat.mod_add_mod, ← hrdef, Nat.mod_eq_of_lt hr1]
      rw [hmod1]
      simp only
      rw [(by omega : N - (r + 1) = m)]
      rw [List.drop_append_eq_append_drop, List.take_append_eq_append_take]
      have h1 : m - tl.length = 0 := by omega
      rw [h1, List.drop_zero, List.take_zero, List.append_nil, List.append_assoc]
      rfl
    · -- index wraps to zero: the rotation becomes trivial
      have hr1' : r + 1 = N := by omega
      have hmod1 : (h ++ [v]).length % N = 0 := by
        simp only [List.length_append, List.length_singleton]
        rw [← Nat.mod_add_mod, ← hrdef, hr1', Nat.mod_self]
      rw [hmod1]
      simp only [Nat.sub_zero]
      have hm0 : m = 0 := by omega
      have hlen2 : (tl ++ [v]).length = N := by
        simp only [List.length_append, List.length_singleton]
        omega
      rw [hm0, List.drop_zero, List.take_zero]
      rw [List.drop_of_length_le (le_of_eq hlen2), List.take_of_length_le (le_of_eq hlen2)]
      simp

theorem stateOf_add (N : ℕ) (hN : 1 ≤ N) (h : List ℤ) (v : ℤ) :
    (CircBuffer.stateOf N h).add v = CircBuffer.stateOf N (h ++ [v]) := by
  have hlen : (h ++ [v]).length = h.length + 1 := by simp
  have hsize : (if min h.length N < N then min h.length N + 1 else min h.length N)
      = min (h.length + 1) N := by
    split <;> omega
  have hidx : (h.length % N + 1) % N = (h.length + 1) % N := Nat.mod_add_mod h.length N 1
  show CircBuffer.mk ((CircBuffer.ringOf N h).set (h.length % N) v)
      (if min h.length N < N then min h.length N + 1 else min h.length N) N
      ((h.length % N + 1) % N)
    = CircBuffer.mk (CircBuffer.ringOf N (h ++ [v])) (min (h ++ [v]).length N) N
      ((h ++ [v]).length % N)
  rw [hlen, ← ringOf_set N hN h v, hsize, hidx]

theorem addAll_init_eq_stateOf (N : ℕ) (hN : 1 ≤ N) (vs : List ℤ) :
    (CircBuffer.init N).addAll vs = CircBuffer.stateOf N vs := by
  induction vs using List.reverseRecOn with
  | nil =>
    simp [CircBuffer.addAll, CircBuffer.init, CircBuffer.stateOf, CircBuffer.ringOf,
      show 0 < N by omega]
  | append_singleton vs v ih =>
    have hstep : (CircBuffer.init N).addAll (vs ++ [v]) =
        ((CircBuffer.init N).addAll vs).add v := by
      unfold CircBuffer.addAll
      rw [List.foldl_append]
      rfl
    rw [hstep, ih, stateOf_add N hN]

theorem average_mk (b : List ℤ) (s N i : ℕ) :
    (CircBuffer.mk b s N i).average =
      if s = 0 then 0 else ((b.take s).sum : ℚ) / (s : ℚ) := rfl

theorem average_of_size_zero (c : CircBuffer) (h : c.size = 0) : c.average = 0 := by
  unfold CircBuffer.average
  rw [if_pos h]

theorem averageChecked_eq_average (c : CircBuffer) : c.averageChecked = some c.average := by
  unfold CircBuffer.averageChecked CircBuffer.average CircBuffer.qdiv
  by_cases h : c.size = 0
  · simp [h]
  · simp [h]

theorem average_stateOf_small (N : ℕ) (h : List ℤ) (h0 : 0 < h.length)
    (hk : h.length < N) :
    (CircBuffer.stateOf N h).average = (h.sum : ℚ) / (h.length : ℚ) := by
  unfold CircBuffer.stateOf
  rw [average_mk]
  have hmin : min h.length N = h.length := by omega
  rw [hmin, if_neg (by omega)]
  have hbuf : CircBuffer.ringOf N h = h ++ List.replicate (N - h.length) 0 := by
    unfold CircBuffer.ringOf
    rw [if_pos hk]
  rw [hbuf, List.take_append_eq_append_take, Nat.sub_self, List.take_zero,
    List.append_nil, List.take_length]

theorem average_stateOf_full (N : ℕ) (hN : 1 ≤ N) (h : List ℤ) (hk : N ≤ h.length) :
    (CircBuffer.stateOf N h).average = ((h.drop (h.length - N)).sum : ℚ) / (N : ℚ) := by
  unfold CircBuffer.stateOf
  rw [average_mk]
  have hmin : min h.length N = N := by omega
  rw [hmin, if_neg (by omega)]
  have hlen : (CircBuffer.ringOf N h).length = N := ringOf_length N hN h
  rw [List.take_of_length_le (le_of_eq hlen)]
  have hbuf : CircBuffer.ringOf N h =
      (h.drop (h.length - N)).drop (N - h.length % N) ++
        (h.drop (h.length - N)).take (N - h.length % N) := by
    unfold CircBuffer.ringOf
    rw [if_neg (by omega)]
  rw [hbuf, List.sum_append, add_comm, ← List.sum_append, List.take_append_drop]

theorem addAllChecked_eq (N : ℕ) (hN : 1 ≤ N) (vs : List ℤ) :
    ∀ c : CircBuffer, c.max_size = N → c.buffer.length = N → c.index < N →
      c.addAllChecked vs = some (c.addAll vs) := by
  induction vs with
  | nil =>
    intro c _ _ _
    simp [CircBuffer.addAllChecked, CircBuffer.addAll]
  | cons v vs ih =>
    intro c h1 h2 h3
    have hch : c.addChecked v = some (c.add v) := by
      unfold CircBuffer.addChecked
      rw [if_pos ⟨by omega, by omega⟩]
    have hstep : c.addAllChecked (v :: vs) = (c.add v).addAllChecked vs := by
      show (match c.addChecked v with
        | some c2 => c2.addAllChecked vs
        | none => none) = (c.add v).addAllChecked vs
      rw [hch]
    have hfold : c.addAll (v :: vs) = (c.add v).addAll vs := rfl
    rw [hstep, hfold]
    refine ih (c.add v) h1 ?_ ?_
    · show (c.buffer.set c.index v).length = N
      rw [List.length_set]
      exact h2
    · show (c.index + 1) % c.max_size < N
      rw [h1]
      exact Nat.mod_lt _ (by omega)

/-- C2: for a smoothing buffer of capacity `N ≥ 1`, `average()` returns `0` when no
value has been added; after `k` adds with `0 < k < N` it returns the exact
arithmetic mean of all `k` values added so far; after `k ≥ N` adds it returns the
exact arithmetic mean of only the most recent `N` values, the oldest having been
overwritten first. -/
theorem C2_average_exact_mean (N : ℕ) (hN : 1 ≤ N) (vs : List ℤ) :
    (vs.length = 0 → ((CircBuffer.init N).addAll vs).average = 0) ∧
    (0 < vs.length → vs.length < N →
      ((CircBuffer.init N).addAll vs).average = (vs.sum : ℚ) / (vs.length : ℚ)) ∧
    (N ≤ vs.length →
      ((CircBuffer.init N).addAll vs).average =
        ((vs.drop (vs.length - N)).sum : ℚ) / (N : ℚ)) := by
  rw [addAll_init_eq_stateOf N hN]
  refine ⟨fun h0 => ?_, fun h0 hk => average_stateOf_small N vs h0 hk,
    fun hk => average_stateOf_full N hN vs hk⟩
  apply average_of_size_zero
  show min vs.length N = 0
  omega

/-- Witness for C2 at `N = 2`, samples `[3, 5, 7]`: the average is the mean of the
last two samples. -/
theorem C2_average_exact_mean_witness :
    ((CircBuffer.init 2).addAll [3, 5, 7]).average =
      ((([3, 5, 7] : List ℤ).drop (([3, 5, 7] : List ℤ).length - 2)).sum : ℚ) / (2 : ℚ) :=
  (C2_average_exact_mean 2 (by decide) [3, 5, 7]).2.2 (by decide)

/-- C10 (amended): for every capacity `N ≥ 1` and add sequence, the buffer keeps
`size = min k N ≤ N` (so `size` saturates at `N` and never decreases) and
`index < N`; no `add` raises; and `average` divides only by a nonzero `size`,
returning `0` whenever `size = 0` (though it can also return `0` with a nonzero
`size`, when the retained samples sum to zero). -/
theorem C10_structural_invariants (N : ℕ) (hN : 1 ≤ N) (vs : List ℤ) :
    ((CircBuffer.init N).addAll vs).max_size = N ∧
    ((CircBuffer.init N).addAll vs).size = min vs.length N ∧
    ((CircBuffer.init N).addAll vs).size ≤ N ∧
    ((CircBuffer.init N).addAll vs).index < N ∧
    (CircBuffer.init N).addAllChecked vs = some ((CircBuffer.init N).addAll vs) ∧
    (∀ ws : List ℤ,
      ((CircBuffer.init N).addAll vs).size ≤ ((CircBuffer.init N).addAll (vs ++ ws)).size) ∧
    ((CircBuffer.init N).addAll vs).averageChecked =
      some ((CircBuffer.init N).addAll vs).average ∧
    (((CircBuffer.init N).addAll vs).size = 0 → ((CircBuffer.init N).addAll vs).average = 0) := by
  have hck : (CircBuffer.init N).addAllChecked vs = some ((CircBuffer.init N).addAll vs) := by
    refine addAllChecked_eq N hN vs (CircBuffer.init N) rfl ?_ ?_
    · show (List.replicate N (0 : ℤ)).length = N
      rw [List.length_replicate]
    · show 0 < N
      omega
  rw [addAll_init_eq_stateOf N hN]
  refine ⟨rfl, rfl, ?_, ?_, ?_, ?_, averageChecked_eq_average _, fun h => average_of_size_zero _ h⟩
  · show min vs.length N ≤ N
    omega
  · show vs.length % N < N
    exact Nat.mod_lt _ (by omega)
  · rw [addAll_init_eq_stateOf N hN] at hck
    exact hck
  · intro ws
    rw [addAll_init_eq_stateOf N hN]
    show min vs.length N ≤ min (vs ++ ws).length N
    rw [List.length_append]
    omega

/-- Witness for C10 at `N = 1`, samples `[2]`. -/
theorem C10_structural_invariants_witness :
    ((CircBuffer.init 1).addAll [2]).index < 1 ∧
      (CircBuffer.init 1).addAllChecked [2] = some ((CircBuffer.init 1).addAll [2]) :=
  ⟨(C10_structural_invariants 1 (by decide) [2]).2.2.2.1,
    (C10_structural_invariants 1 (by decide) [2]).2.2.2.2.1⟩

/-- C10 counterexample: the claim's parenthetical "average returns 0 exactly when
size = 0" fails in the only-if direction: after adding the single value `0` to a
buffer of capacity `1`, `size = 1` yet `average()` returns `0`. -/
theorem C10_counterexample :
    ((CircBuffer.init 1).add 0).size = 1 ∧ ((CircBuffer.init 1).add 0).average = 0 := by
  refine ⟨rfl, ?_⟩
  norm_num [CircBuffer.add, CircBuffer.init, CircBuffer.average]

/-! ## Helper lemmas for the signal conditioner -/

theorem pyTrunc_of_nonneg (q : ℚ) (h : 0 ≤ q) : pyTrunc q = ⌊q⌋ := by
  unfold pyTrunc
  rw [if_pos h]

theorem updateValue_def (a : Actuator) (r : ℤ) :
    a.updateValue r =
      { a with
        value :=
          ite
            (|pyTrunc (a.value_min + (r : ℚ) / 65536 * (a.value_range : ℚ)) - a.value_mid| <
              a.dead_range)
            a.value_mid
            (pyTrunc (a.value_min + (r : ℚ) / 65536 * (a.value_range : ℚ))) } := by
  unfold Actuator.updateValue
  split <;> simp_all

theorem updateValue_init_value (name : String) (pin : PinSpec) (mid range dead r : ℤ) :
    ((Actuator.init name pin mid range dead).updateValue r).value =
      conditionedValue mid range dead r := by
  rw [updateValue_def]
  rfl

theorem conditioned_bounds_of_nonneg (mid range dead r : ℤ) (hrange : 0 < range)
    (hdead : 0 ≤ dead) (hmid : range ≤ 2 * mid) (hr0 : 0 ≤ r) (hr1 : r ≤ 65535) :
    ⌊(mid : ℚ) - (range : ℚ) / 2⌋ ≤ conditionedValue mid range dead r ∧
      (conditionedValue mid range dead r : ℚ) < (mid : ℚ) + (range : ℚ) / 2 := by
  have hrangeq : (0 : ℚ) < (range : ℚ) := by exact_mod_cast hrange
  have hmidq : (range : ℚ) ≤ 2 * (mid : ℚ) := by exact_mod_cast hmid
  have hq0 : (0 : ℚ) ≤ (mid : ℚ) - (range : ℚ) / 2 := by linarith
  have hrq0 : (0 : ℚ) ≤ (r : ℚ) := by exact_mod_cast hr0
  have hrq1 : (r : ℚ) ≤ 65535 := by exact_mod_cast hr1
  have hfr : (0 : ℚ) ≤ (r : ℚ) / 65536 * (range : ℚ) := by
    apply mul_nonneg (by linarith) (le_of_lt hrangeq)
  have hfrlt : (r : ℚ) / 65536 * (range : ℚ) < (range : ℚ) := by
    have hlt1 : (r : ℚ) / 65536 < 1 := by linarith
    calc (r : ℚ) / 65536 * (range : ℚ) < 1 * (range : ℚ) :=
          mul_lt_mul_of_pos_right hlt1 hrangeq
      _ = (range : ℚ) := one_mul _
  set Q := (mid : ℚ) - (range : ℚ) / 2 + (r : ℚ) / 65536 * (range : ℚ) with hQdef
  have hQ0 : 0 ≤ Q := by rw [hQdef]; linarith
  have hQlt : Q < (mid : ℚ) + (range : ℚ) / 2 := by rw [hQdef]; linarith
  have hflow : ⌊(mid : ℚ) - (range : ℚ) / 2⌋ ≤ ⌊Q⌋ :=
    Int.floor_mono (by rw [hQdef]; linarith)
  have hfup : ((⌊Q⌋ : ℤ) : ℚ) < (mid : ℚ) + (range : ℚ) / 2 :=
    lt_of_le_of_lt (Int.floor_le Q) hQlt
  have hmidlow : ⌊(mid : ℚ) - (range : ℚ) / 2⌋ ≤ mid := by
    have hmono := Int.floor_mono (show (mid : ℚ) - (range : ℚ) / 2 ≤ (mid : ℚ) by linarith)
    rwa [Int.floor_intCast] at hmono
  have hmidup : ((mid : ℤ) : ℚ) < (mid : ℚ) + (range : ℚ) / 2 := by linarith
  unfold conditionedValue
  rw [pyTrunc_of_nonneg _ hQ0]
  by_cases hdz : |⌊Q⌋ - mid| < dead
  · rw [if_pos hdz]
    exact ⟨hmidlow, hmidup⟩
  · rw [if_neg hdz]
    exact ⟨hflow, hfup⟩

theorem conditioned_at_zero (mid range dead : ℤ) (hrange : 0 < range)
    (hhalf : 2 * dead < range) (hmid : range ≤ 2 * mid) :
    conditionedValue mid range dead 0 = ⌊(mid : ℚ) - (range : ℚ) / 2⌋ := by
  have hrangeq : (0 : ℚ) < (range : ℚ) := by exact_mod_cast hrange
  have hmidq : (range : ℚ) ≤ 2 * (mid : ℚ) := by exact_mod_cast hmid
  have hhalfq : 2 * (dead : ℚ) < (range : ℚ) := by exact_mod_cast hhalf
  have hq0 : (0 : ℚ) ≤ (mid : ℚ) - (range : ℚ) / 2 := by linarith
  have harg : (mid : ℚ) - (range : ℚ) / 2 + ((0 : ℤ) : ℚ) / 65536 * (range : ℚ) =
      (mid : ℚ) - (range : ℚ) / 2 := by
    push_cast
    ring
  unfold conditionedValue
  rw [harg, pyTrunc_of_nonneg _ hq0]
  have hfle : (↑⌊(mid : ℚ) - (range : ℚ) / 2⌋ : ℚ) ≤ (mid : ℚ) - (range : ℚ) / 2 :=
    Int.floor_le _
  have hgap : dead < mid - ⌊(mid : ℚ) - (range : ℚ) / 2⌋ := by
    have hgapq : (dead : ℚ) < (mid : ℚ) - (↑⌊(mid : ℚ) - (range : ℚ) / 2⌋ : ℚ) := by
      linarith
    exact_mod_cast hgapq
  rw [if_neg ?hdz]
  case hdz =>
    rw [abs_sub_lt_iff]
    intro hc
    omega

/-- C1 (amended): for every actuator spec `(mid, range, deadband)` with
`range > 0`, `deadband ≥ 0`, `2·deadband < range` and every raw value `r`,
`updateValue` sets `value` to `int(mid - range/2 + (r/65536)·range)` where
Python `int()` truncates toward zero — coinciding with the claimed floor
whenever the pre-truncation operand is nonnegative — then forces `value = mid`
whenever `|value - mid| < deadband`; all other fields are left unchanged. -/
theorem C1_updateValue_formula (name : String) (pin : PinSpec)
    (mid range dead r : ℤ) (hrange : 0 < range) (hdead : 0 ≤ dead)
    (hhalf : 2 * dead < range) :
    ((Actuator.init name pin mid range dead).updateValue r).value =
      conditionedValue mid range dead r ∧
    (0 ≤ (mid : ℚ) - (range : ℚ) / 2 + (r : ℚ) / 65536 * (range : ℚ) →
      conditionedValue mid range dead r = specFloorValue mid range dead r) ∧
    ((Actuator.init name pin mid range dead).updateValue r).name = name ∧
    ((Actuator.init name pin mid range dead).updateValue r).pin = pin ∧
    ((Actuator.init name pin mid range dead).updateValue r).value_mid = mid ∧
    ((Actuator.init name pin mid range dead).updateValue r).value_range = range ∧
    ((Actuator.init name pin mid range dead).updateValue r).dead_range = dead ∧
    ((Actuator.init name pin mid range dead).updateValue r).value_min =
      (mid : ℚ) - (range : ℚ) / 2 ∧
    ((Actuator.init name pin mid range dead).updateValue r).value_max =
      (mid : ℚ) + (range : ℚ) / 2 := by
  refine ⟨updateValue_init_value name pin mid range dead r, ?_, ?_, ?_, ?_, ?_, ?_, ?_, ?_⟩
  · intro h
    unfold conditionedValue specFloorValue
    rw [pyTrunc_of_nonneg _ h]
  all_goals (rw [updateValue_def]; rfl)

/-- Witness for C1 at the safran spec `(1450, 600, 30)` and raw value `0`. -/
theorem C1_updateValue_formula_witness :
    ((Actuator.init "safran" (PinSpec.multi [23, 24]) 1450 600 30).updateValue 0).value =
      conditionedValue 1450 600 30 0 :=
  (C1_updateValue_formula "safran" (PinSpec.multi [23, 24]) 1450 600 30 0
    (by decide) (by decide) (by decide)).1

/-- C1 counterexample: at the admissible spec `(mid, range, deadband) = (0, 600, 0)`
and raw value `r = 1`, the code's `int()` truncation gives `-299` while the
claimed floor formula gives `-300`. -/
theorem C1_counterexample :
    ((Actuator.init "safran" (PinSpec.multi [23, 24]) 0 600 0).updateValue 1).value = -299 ∧
      specFloorValue 0 600 0 1 = -300 := by
  constructor
  · rw [updateValue_init_value]
    unfold conditionedValue pyTrunc
    norm_num
    have hc : ⌈(-(2457525 / 8192) : ℚ)⌉ = -299 := by
      rw [Int.ceil_eq_iff]
      constructor <;> norm_num
    rw [hc]
    norm_num
  · unfold specFloorValue
    norm_num

/-- C7 (amended): for raw values `r` in `[0, 65535]` and actuator specs with
`range > 0`, `0 ≤ deadband`, `2·deadband < range` and a nonnegative low end of
travel (`range ≤ 2·mid`), the conditioned value `v` satisfies
`⌊mid - range/2⌋ ≤ v < mid + range/2`; `r = 0` yields exactly
`v = ⌊mid - range/2⌋` and `r = 65535` yields `v` strictly below `mid + range/2`.
Without `range ≤ 2·mid` the bounds can fail, because Python `int()` truncates
toward zero rather than flooring. -/
theorem C7_conditioned_value_bounds (mid range dead r : ℤ) (hrange : 0 < range)
    (hdead : 0 ≤ dead) (hhalf : 2 * dead < range) (hmid : range ≤ 2 * mid)
    (hr0 : 0 ≤ r) (hr1 : r ≤ 65535) :
    ⌊(mid : ℚ) - (range : ℚ) / 2⌋ ≤ conditionedValue mid range dead r ∧
    (conditionedValue mid range dead r : ℚ) < (mid : ℚ) + (range : ℚ) / 2 ∧
    (r = 0 → conditionedValue mid range dead r = ⌊(mid : ℚ) - (range : ℚ) / 2⌋) ∧
    (r = 65535 → (conditionedValue mid range dead r : ℚ) < (mid : ℚ) + (range : ℚ) / 2) := by
  obtain ⟨hlow, hup⟩ := conditioned_bounds_of_nonneg mid range dead r hrange hdead hmid hr0 hr1
  refine ⟨hlow, hup, ?_, fun _ => hup⟩
  intro hr
  subst hr
  exact conditioned_at_zero mid range dead hrange hhalf hmid

/-- Witness for C7 at the safran spec `(1450, 600, 30)` and raw value `0`. -/
theorem C7_conditioned_value_bounds_witness :
    conditionedValue 1450 600 30 0 = ⌊((1450 : ℤ) : ℚ) - ((600 : ℤ) : ℚ) / 2⌋ :=
  (C7_conditioned_value_bounds 1450 600 30 0 (by decide) (by decide)
    (by decide) (by decide) (by decide) (by decide)).2.2.1 rfl

/-- C7 counterexample: at the admissible spec `(mid, range, deadband) =
(-1000, 600, 0)` and raw value `r = 65535`, truncation toward zero gives
`v = -700 = mid + range/2`, so `v` is not strictly below the claimed upper
bound (and `r = 65535` does not stay strictly under `mid + range/2`). -/
theorem C7_counterexample :
    conditionedValue (-1000) 600 0 65535 = -700 ∧
      ¬((conditionedValue (-1000) 600 0 65535 : ℚ) <
        ((-1000 : ℤ) : ℚ) + ((600 : ℤ) : ℚ) / 2) := by
  have hval : conditionedValue (-1000) 600 0 65535 = -700 := by
    unfold conditionedValue pyTrunc
    norm_num
    have hc : ⌈(-(5734475 / 8192) : ℚ)⌉ = -700 := by
      rw [Int.ceil_eq_iff]
      constructor <;> norm_num
    rw [hc]
    norm_num
  refine ⟨hval, ?_⟩
  rw [hval]
  norm_num

/-! ## Remote-side claims -/

theorem litCount_eq_countP (lq : ℤ) :
    litCount lq = (List.range 8).countP (fun p : ℕ => decide ((p : ℚ) < ledLevel lq)) := by
  unfold litCount ledsFor leds_pins
  simp [List.count_eq_countP, List.countP_map]
  congr 1

theorem ledLevel_mono (a b : ℤ) (h : a ≤ b) : ledLevel a ≤ ledLevel b := by
  unfold ledLevel
  have hq : (a : ℚ) ≤ (b : ℚ) := by exact_mod_cast h
  linarith

/-- C8: the quality-to-indicator mapping of `updateLinkQuality` lights no LED
for raw quality at or below 30, lights all 8 LEDs for raw quality at or above
70, and the lit count is monotonically non-decreasing in the raw quality. -/
theorem C8_led_feedback_mapping :
    (∀ (st : RemoteState) (lq : ℤ), (updateLinkQuality st lq).leds = ledsFor lq) ∧
    (∀ lq : ℤ, lq ≤ 30 → litCount lq = 0) ∧
    (∀ lq : ℤ, 70 ≤ lq → litCount lq = 8) ∧
    (∀ a b : ℤ, a ≤ b → litCount a ≤ litCount b) := by
  refine ⟨fun st lq => rfl, ?_, ?_, ?_⟩
  · intro lq h
    rw [litCount_eq_countP]
    apply List.countP_eq_zero.2
    intro p _
    simp only [decide_eq_true_eq]
    have hq : (lq : ℚ) ≤ 30 := by exact_mod_cast h
    have hp : (0 : ℚ) ≤ (p : ℚ) := Nat.cast_nonneg p
    unfold ledLevel
    intro hc
    nlinarith
  · intro lq h
    rw [litCount_eq_countP]
    have hlen : (List.range 8).countP (fun p : ℕ => decide ((p : ℚ) < ledLevel lq)) =
        (List.range 8).length := by
      apply List.countP_eq_length.2
      intro p hp
      simp only [decide_eq_true_eq]
      have hq : (70 : ℚ) ≤ (lq : ℚ) := by exact_mod_cast h
      have hp8 : p < 8 := by simpa using hp
      have hpq : (p : ℚ) ≤ 7 := by
        have : p ≤ 7 := by omega
        exact_mod_cast this
      unfold ledLevel
      nlinarith
    rw [hlen]
    rfl
  · intro a b h
    rw [litCount_eq_countP, litCount_eq_countP]
    apply List.countP_mono_left
    intro p _
    simp only [decide_eq_true_eq]
    intro hc
    exact lt_of_lt_of_le hc (ledLevel_mono a b h)

/-- Witness for C8: quality 30 lights no LED, quality 70 lights all 8, and the
count does not decrease from quality 10 to quality 55. -/
theorem C8_led_feedback_mapping_witness :
    litCount 30 = 0 ∧ litCount 70 = 8 ∧ litCount 10 ≤ litCount 55 :=
  ⟨C8_led_feedback_mapping.2.1 30 (by decide),
    C8_led_feedback_mapping.2.2.1 70 (by decide),
    C8_led_feedback_mapping.2.2.2 10 55 (by decide)⟩

/-- C6 (amended): the running link-quality statistics are seeded at `min = 100`,
`max = 0`, but `updateLinkQuality` folds every incoming value into them
unconditionally — there is no guard for the sentinel `-1`, so an ack carrying
`linkQuality = -1` drives `linkQualityMin` to `-1`. -/
theorem C6_stats_unguarded :
    initRemote.linkQualityMin = 100 ∧ initRemote.linkQualityMax = 0 ∧
    (∀ (st : RemoteState) (lq : ℤ),
      (updateLinkQuality st lq).linkQualityMin = min st.linkQualityMin lq ∧
      (updateLinkQuality st lq).linkQualityMax = max st.linkQualityMax lq) :=
  ⟨rfl, rfl, fun _ _ => ⟨rfl, rfl⟩⟩

/-- C6 counterexample: the state reached after one run iteration whose ack
carries `linkQuality = -1` has `linkQualityMin = -1`, refuting the invariant
that `linkQualityMin` is never `-1` in a reachable state. -/
theorem C6_counterexample :
    (outState (runTrace initRemote [sampleInput (AckEvent.ack 0 (-1))])).linkQualityMin = -1 ∧
      initRemote.linkQualityMin = 100 := by
  constructor <;> rfl

/-- C5 (amended): in the steady state, a read timeout or a zero-length read (and
likewise a connection reset raised by the send) clears `isConnected`, so the
outer loop resumes connecting; but an ack payload that fails to decode as JSON
re-raises the decode error, which `run`'s catch-all re-raises: the process
terminates on a malformed ack payload. -/
theorem C5_disconnect_vs_fatal (st : RemoteState) (inp : LoopInput) :
    (inp.ackEv = AckEvent.noReady ∨ inp.ackEv = AckEvent.emptyAck →
      ∃ st2 : RemoteState, runStep st inp = RunOutcome.cont st2 ∧ st2.isConnected = false) ∧
    (inp.ackEv = AckEvent.sendErr →
      ∃ st2 : RemoteState, runStep st inp = RunOutcome.cont st2 ∧ st2.isConnected = false) ∧
    (inp.ackEv = AckEvent.badJson → isFatal (runStep st inp) = true) ∧
    (st.isConnected = false →
      runIter st inp = runStep (connectStep st inp.attempts) inp) := by
  refine ⟨?_, ?_, ?_, ?_⟩
  · intro h
    rcases h with h | h <;>
      exact ⟨_, by unfold runStep doLoop; rw [h], rfl⟩
  · intro h
    exact ⟨_, by unfold runStep doLoop; rw [h], rfl⟩
  · intro h
    unfold runStep doLoop
    rw [h]
    rfl
  · intro h
    unfold runIter
    rw [h]
    rfl

/-- Witness for C5: with a timed-out ack wait the loop continues disconnected;
with an undecodable ack the iteration is fatal. -/
theorem C5_disconnect_vs_fatal_witness :
    (∃ st2 : RemoteState,
      runStep initRemote (sampleInput AckEvent.noReady) = RunOutcome.cont st2 ∧
        st2.isConnected = false) ∧
      isFatal (runStep initRemote (sampleInput AckEvent.badJson)) = true :=
  ⟨(C5_disconnect_vs_fatal initRemote (sampleInput AckEvent.noReady)).1 (Or.inl rfl),
    (C5_disconnect_vs_fatal initRemote (sampleInput AckEvent.badJson)).2.2.1 rfl⟩

/-- C5 counterexample: a malformed ack payload does not transition the loop to
`Disconnected` and reconnect — it kills the process: the run trace ends fatal. -/
theorem C5_counterexample :
    isFatal (runTrace initRemote [sampleInput AckEvent.badJson]) = true := by
  rfl

theorem readChannel_le (a1 a2 : ℕ) (h : a2 < 256) : readChannel a1 a2 ≤ 65472 := by
  unfold readChannel
  have h3 : a1 &&& 3 ≤ 3 := Nat.and_le_right
  have hs : (a1 &&& 3) <<< 8 = (a1 &&& 3) * 256 := Nat.shiftLeft_eq _ 8
  omega

/-- C9 (amended): in every message `doLoop` transmits, the moteur channel value
is an unsigned 16-bit integer (indeed at most 65472), but the trim-adjusted
safran value only lies in `[-32768, 98176]` — it is not always in `[0, 65535]`. -/
theorem C9_message_value_ranges (inp : LoopInput)
    (h1 : inp.trimB < 256) (h2 : inp.safB < 256) (h3 : inp.motB < 256) :
    (∀ st : RemoteState, inp.ackEv ≠ AckEvent.sendErr →
      (doLoop st inp).2.1 = some (builtMsg inp)) ∧
    0 ≤ (builtMsg inp).moteur ∧ (builtMsg inp).moteur ≤ 65535 ∧
    -32768 ≤ (builtMsg inp).safran ∧ (builtMsg inp).safran ≤ 98176 := by
  have htrim := readChannel_le inp.trimA inp.trimB h1
  have hsaf := readChannel_le inp.safA inp.safB h2
  have hmot := readChannel_le inp.motA inp.motB h3
  refine ⟨?_, ?_, ?_, ?_, ?_⟩
  · intro st hev
    unfold doLoop
    cases hcase : inp.ackEv <;> first | rfl | exact absurd hcase hev
  all_goals unfold builtMsg; simp only; omega

/-- Witness for C9 at the all-zero-bytes input. -/
theorem C9_message_value_ranges_witness :
    0 ≤ (builtMsg (sampleInput (AckEvent.ack 0 0))).moteur ∧
      (builtMsg (sampleInput (AckEvent.ack 0 0))).moteur ≤ 65535 :=
  ⟨(C9_message_value_ranges (sampleInput (AckEvent.ack 0 0))
      (by decide) (by decide) (by decide)).2.1,
    (C9_message_value_ranges (sampleInput (AckEvent.ack 0 0))
      (by decide) (by decide) (by decide)).2.2.1⟩

/-- C9 counterexample: with all ADC bytes zero the trim-adjusted safran value of
the transmitted message is `-32768`, which is not an unsigned 16-bit value. -/
theorem C9_counterexample :
    (builtMsg (sampleInput (AckEvent.ack 0 0))).safran = -32768 ∧
      ¬(0 ≤ (builtMsg (sampleInput (AckEvent.ack 0 0))).safran ∧
        (builtMsg (sampleInput (AckEvent.ack 0 0))).safran ≤ 65535) := by
  decide

/-! ## Vehicle-side claims -/

theorem handleMsg_all_present (st : BoatState) (m : ControlMessage)
    (rs rm rg rf ts : ℤ) (hW : st.wellNamed)
    (h1 : m.safran = some rs) (h2 : m.moteur = some rm) (h3 : m.ecoute_gv = some rg)
    (h4 : m.ecoute_foc = some rf) (h5 : m.ts = some ts) :
    handleMsg st m = (stAfterMsg st rs rm rg rf, some ts) := by
  obtain ⟨hn1, hn2, hn3, hn4⟩ := hW
  simp [handleMsg, stepSafran, stepMoteur, stepGv, stepFoc, Actuator.updateValueM,
    ControlMessage.get, hn1, hn2, hn3, hn4, h1, h2, h3, h4, h5, stAfterMsg]

theorem handleMsg_missing_moteur (st : BoatState) (m : ControlMessage) (rs : ℤ)
    (hW : st.wellNamed) (h1 : m.safran = some rs) (h2 : m.moteur = none) :
    handleMsg st m =
      ({ st with
          safran := st.safran.updateValue rs
          hw := updatePwm st.hw (st.safran.updateValue rs) }, none) := by
  obtain ⟨hn1, hn2, _, _⟩ := hW
  simp [handleMsg, stepSafran, stepMoteur, Actuator.updateValueM,
    ControlMessage.get, hn1, hn2, h1, h2]

theorem handleMsg_missing_snd_none (st : BoatState) (m : ControlMessage)
    (hW : st.wellNamed)
    (hmiss : m.safran = none ∨ m.moteur = none ∨ m.ecoute_gv = none ∨
      m.ecoute_foc = none) :
    (handleMsg st m).2 = none := by
  obtain ⟨hn1, hn2, hn3, hn4⟩ := hW
  cases hs : m.safran with
  | none =>
    simp [handleMsg, stepSafran, Actuator.updateValueM, ControlMessage.get, hn1, hs]
  | some rs =>
    cases hm : m.moteur with
    | none =>
      simp [handleMsg, stepSafran, stepMoteur, Actuator.updateValueM,
        ControlMessage.get, hn1, hn2, hs, hm]
    | some rm =>
      cases hg : m.ecoute_gv with
      | none =>
        simp [handleMsg, stepSafran, stepMoteur, stepGv, Actuator.updateValueM,
          ControlMessage.get, hn1, hn2, hn3, hs, hm, hg]
      | some rg =>
        cases hf : m.ecoute_foc with
        | none =>
          simp [handleMsg, stepSafran, stepMoteur, stepGv, stepFoc,
            Actuator.updateValueM, ControlMessage.get, hn1, hn2, hn3, hn4,
            hs, hm, hg, hf]
        | some rf =>
          rcases hmiss with h | h | h | h <;> simp_all

theorem handleClient_msg_none (st : BoatState) (m : ControlMessage)
    (h : (handleMsg st m).2 = none) :
    handleClient st [Ev.msg m] = ((handleMsg st m).1, [], SessionOutcome.exn) := by
  unfold handleClient
  rcases hp : handleMsg st m with ⟨st2, o⟩
  rw [hp] at h
  simp only at h
  subst h
  rfl

theorem handleClient_msg_cons (st : BoatState) (m : ControlMessage) (st4 : BoatState)
    (ts : ℤ) (rest : List Ev) (h : handleMsg st m = (st4, some ts)) :
    handleClient st (Ev.msg m :: rest) =
      ((handleClient st4 rest).1, ts :: (handleClient st4 rest).2.1,
        (handleClient st4 rest).2.2) := by
  have hred : handleClient st (Ev.msg m :: rest) =
      (match handleMsg st m with
        | (st2, some ts) =>
          ((handleClient st2 rest).1, ts :: (handleClient st2 rest).2.1,
            (handleClient st2 rest).2.2)
        | (st2, none) => (st2, [], SessionOutcome.exn)) := rfl
  rw [hred, h]

/-- C3 (amended): when a session ends with `break` (idle timeout or empty read),
the only re-arming before the next accept is the engine-reinit line driving the
moteur pin to the moteur midpoint; every actuator object — including its
`value` field — and every other pin keeps its session-end state, and a session
that ends in an exception (socket error, parse failure, missing key) propagates
out of `run`, so no next client is accepted at all. -/
theorem C3_rearm_only_moteur_hw (st : BoatState) (evs : List Ev) (st2 : BoatState)
    (acks : List ℤ) (hs : handleClient st evs = (st2, acks, SessionOutcome.brk))
    (hpin : st2.moteur.pin = PinSpec.single 25) :
    nextAcceptState st evs = some (reinitEngine st2) ∧
    (reinitEngine st2).hw 25 = st2.moteur.value_mid ∧
    (∀ q : ℕ, q ≠ 25 → (reinitEngine st2).hw q = st2.hw q) ∧
    (reinitEngine st2).safran = st2.safran ∧
    (reinitEngine st2).moteur = st2.moteur ∧
    (reinitEngine st2).ecoute_gv = st2.ecoute_gv ∧
    (reinitEngine st2).ecoute_foc = st2.ecoute_foc ∧
    (∀ (st' : BoatState) (evs' : List Ev) (st3 : BoatState) (acks' : List ℤ),
      handleClient st' evs' = (st3, acks', SessionOutcome.exn) →
      nextAcceptState st' evs' = none) := by
  refine ⟨?_, ?_, ?_, rfl, rfl, rfl, rfl, ?_⟩
  · unfold nextAcceptState
    rw [hs]
  · show pinWrite st2.hw st2.moteur.pin st2.moteur.value_mid 25 = st2.moteur.value_mid
    rw [hpin]
    simp [pinWrite]
  · intro q hq
    show pinWrite st2.hw st2.moteur.pin st2.moteur.value_mid q = st2.hw q
    rw [hpin]
    simp [pinWrite, Function.update_noteq hq]
  · intro st' evs' st3 acks' h'
    unfold nextAcceptState
    rw [h']

/-- Witness for C3 at a session that times out immediately from the initial
boat state. -/
theorem C3_rearm_only_moteur_hw_witness :
    nextAcceptState initBoat [Ev.notReady] = some (reinitEngine initBoat) ∧
      (reinitEngine initBoat).hw 25 = initBoat.moteur.value_mid :=
  ⟨(C3_rearm_only_moteur_hw initBoat [Ev.notReady] initBoat [] rfl rfl).1,
    (C3_rearm_only_moteur_hw initBoat [Ev.notReady] initBoat [] rfl rfl).2.1⟩

theorem updateValue_pin (a : Actuator) (r : ℤ) : (a.updateValue r).pin = a.pin := by
  rw [updateValue_def]

theorem updateValue_value_mid (a : Actuator) (r : ℤ) :
    (a.updateValue r).value_mid = a.value_mid := by
  rw [updateValue_def]

theorem updatePwm_single_other (hw : ℕ → ℤ) (a : Actuator) (q p : ℕ)
    (hp : a.pin = PinSpec.single p) (hq : q ≠ p) : updatePwm hw a q = hw q := by
  unfold updatePwm
  rw [hp]
  simp [pinWrite, Function.update_noteq hq]

theorem updatePwm_pair_left (hw : ℕ → ℤ) (a : Actuator) (q p2 : ℕ)
    (hp : a.pin = PinSpec.multi [q, p2]) (hq : q ≠ p2) : updatePwm hw a q = a.value := by
  unfold updatePwm
  rw [hp]
  show Function.update (Function.update hw q a.value) p2 a.value q = a.value
  rw [Function.update_noteq hq, Function.update_same]

theorem cond_safran_zero : conditionedValue 1450 600 30 0 = 1150 := by
  unfold conditionedValue pyTrunc
  norm_num

theorem cond_moteur_zero : conditionedValue 1400 800 50 0 = 1000 := by
  unfold conditionedValue pyTrunc
  norm_num

/-- C3 counterexample: after a session that processes one all-zero message and
then times out (a normal, break-terminated session end), the state at the next
accept still has the steering ActuatorState at 1150 and pin 23 driven at 1150
(its midpoint is 1450), and the throttle ActuatorState still at 1000 (midpoint
1400) even though pin 25 was re-driven to 1400: the actuators are not re-armed
to neutral. -/
theorem C3_counterexample :
    (handleClient initBoat
        [Ev.msg ⟨some 0, some 0, some 0, some 0, some 0⟩, Ev.notReady]).2.2 =
      SessionOutcome.brk ∧
    nextAcceptState initBoat
        [Ev.msg ⟨some 0, some 0, some 0, some 0, some 0⟩, Ev.notReady] =
      some (reinitEngine (stAfterMsg initBoat 0 0 0 0)) ∧
    (reinitEngine (stAfterMsg initBoat 0 0 0 0)).safran.value = 1150 ∧
    (reinitEngine (stAfterMsg initBoat 0 0 0 0)).safran.value_mid = 1450 ∧
    (reinitEngine (stAfterMsg initBoat 0 0 0 0)).moteur.value = 1000 ∧
    (reinitEngine (stAfterMsg initBoat 0 0 0 0)).moteur.value_mid = 1400 ∧
    (reinitEngine (stAfterMsg initBoat 0 0 0 0)).hw 23 = 1150 ∧
    (reinitEngine (stAfterMsg initBoat 0 0 0 0)).hw 25 = 1400 := by
  have hW : initBoat.wellNamed := ⟨rfl, rfl, rfl, rfl⟩
  have hmsg := handleMsg_all_present initBoat ⟨some 0, some 0, some 0, some 0, some 0⟩
    0 0 0 0 0 hW rfl rfl rfl rfl rfl
  have hcli := handleClient_msg_cons initBoat ⟨some 0, some 0, some 0, some 0, some 0⟩
    (stAfterMsg initBoat 0 0 0 0) 0 [Ev.notReady] hmsg
  have hpin : (stAfterMsg initBoat 0 0 0 0).moteur.pin = PinSpec.single 25 := by
    show ((Actuator.init "moteur" (PinSpec.single 25) 1400 800 50).updateValue 0).pin =
      PinSpec.single 25
    rw [updateValue_pin]
    rfl
  have hmid : (stAfterMsg initBoat 0 0 0 0).moteur.value_mid = 1400 := by
    show ((Actuator.init "moteur" (PinSpec.single 25) 1400 800 50).updateValue 0).value_mid =
      1400
    rw [updateValue_value_mid]
    rfl
  have hsafval : (stAfterMsg initBoat 0 0 0 0).safran.value = 1150 := by
    show ((Actuator.init "safran" (PinSpec.multi [23, 24]) 1450 600 30).updateValue 0).value =
      1150
    rw [updateValue_init_value, cond_safran_zero]
  have hsafpin : (stAfterMsg initBoat 0 0 0 0).safran.pin = PinSpec.multi [23, 24] := by
    show ((Actuator.init "safran" (PinSpec.multi [23, 24]) 1450 600 30).updateValue 0).pin =
      PinSpec.multi [23, 24]
    rw [updateValue_pin]
    rfl
  have hrehw : (reinitEngine (stAfterMsg initBoat 0 0 0 0)).hw =
      pinWrite (stAfterMsg initBoat 0 0 0 0).hw (PinSpec.single 25)
        ((stAfterMsg initBoat 0 0 0 0).moteur.value_mid) := by
    unfold reinitEngine
    rw [hpin]
  have hst4hw : (stAfterMsg initBoat 0 0 0 0).hw 23 = 1150 := by
    show updatePwm (updatePwm (updatePwm (updatePwm initBoat.hw
        (initBoat.safran.updateValue 0)) (initBoat.moteur.updateValue 0))
        (initBoat.ecoute_gv.updateValue 0)) (initBoat.ecoute_foc.updateValue 0) 23 = 1150
    rw [updatePwm_single_other _ _ 23 27 (by rw [updateValue_pin]; rfl) (by decide)]
    rw [updatePwm_single_other _ _ 23 22 (by rw [updateValue_pin]; rfl) (by decide)]
    rw [updatePwm_single_other _ _ 23 25 (by rw [updateValue_pin]; rfl) (by decide)]
    rw [updatePwm_pair_left _ _ 23 24 (by rw [updateValue_pin]; rfl) (by decide)]
    exact hsafval
  refine ⟨?_, ?_, ?_, ?_, ?_, ?_, ?_, ?_⟩
  · rw [hcli]
    rfl
  · unfold nextAcceptState
    rw [hcli]
    rfl
  · exact hsafval
  · show ((Actuator.init "safran" (PinSpec.multi [23, 24]) 1450 600 30).updateValue
        0).value_mid = 1450
    rw [updateValue_value_mid]
    rfl
  · show ((Actuator.init "moteur" (PinSpec.single 25) 1400 800 50).updateValue 0).value =
      1000
    rw [updateValue_init_value, cond_moteur_zero]
  · exact hmid
  · rw [hrehw]
    show Function.update ((stAfterMsg initBoat 0 0 0 0).hw) 25
      ((stAfterMsg initBoat 0 0 0 0).moteur.value_mid) 23 = 1150
    rw [Function.update_noteq (by decide), hst4hw]
  · rw [hrehw]
    show Function.update ((stAfterMsg initBoat 0 0 0 0).hw) 25
      ((stAfterMsg initBoat 0 0 0 0).moteur.value_mid) 25 = 1400
    rw [Function.update_same, hmid]

/-- C4 (amended): an inbound message missing any declared channel produces no
acknowledgement and ends the session with an exception; however the rejection
is not atomic: actuators preceding the first missing channel in the fixed order
(safran, moteur, ecoute_gv, ecoute_foc) have already been updated and driven to
hardware.  In particular, with safran present and moteur missing, the safran
ActuatorState and its pins are driven from the partially processed message
while the remaining actuators keep their previous state. -/
theorem C4_missing_channel (st : BoatState) (m : ControlMessage) (hW : st.wellNamed)
    (hmiss : m.safran = none ∨ m.moteur = none ∨ m.ecoute_gv = none ∨
      m.ecoute_foc = none) :
    (handleClient st [Ev.msg m]).2.1 = [] ∧
    (handleClient st [Ev.msg m]).2.2 = SessionOutcome.exn ∧
    (∀ rs : ℤ, m.safran = some rs → m.moteur = none →
      (handleClient st [Ev.msg m]).1.safran = st.safran.updateValue rs ∧
      (handleClient st [Ev.msg m]).1.hw = updatePwm st.hw (st.safran.updateValue rs) ∧
      (handleClient st [Ev.msg m]).1.moteur = st.moteur ∧
      (handleClient st [Ev.msg m]).1.ecoute_gv = st.ecoute_gv ∧
      (handleClient st [Ev.msg m]).1.ecoute_foc = st.ecoute_foc) := by
  have hnone := handleMsg_missing_snd_none st m hW hmiss
  have hc := handleClient_msg_none st m hnone
  refine ⟨by rw [hc], by rw [hc], ?_⟩
  intro rs h1 h2
  have hm := handleMsg_missing_moteur st m rs hW h1 h2
  rw [hc, hm]
  exact ⟨rfl, rfl, rfl, rfl, rfl⟩

/-- Witness for C4 at the initial boat state and a message carrying only the
safran channel. -/
theorem C4_missing_channel_witness :
    (handleClient initBoat [Ev.msg ⟨some 0, none, none, none, none⟩]).2.1 = [] ∧
      (handleClient initBoat [Ev.msg ⟨some 0, none, none, none, none⟩]).2.2 =
        SessionOutcome.exn :=
  ⟨(C4_missing_channel initBoat ⟨some 0, none, none, none, none⟩ ⟨rfl, rfl, rfl, rfl⟩
      (Or.inr (Or.inl rfl))).1,
    (C4_missing_channel initBoat ⟨some 0, none, none, none, none⟩ ⟨rfl, rfl, rfl, rfl⟩
      (Or.inr (Or.inl rfl))).2.1⟩

/-- C4 counterexample: a message with safran present but moteur missing is
rejected (no ack, exception), yet the safran ActuatorState moves from 1450 to
1150 and pin 23 is re-driven from 1450 to 1150 — actuator state and hardware
ARE updated from the partially processed message. -/
theorem C4_counterexample :
    initBoat.safran.value = 1450 ∧
    initBoat.hw 23 = 1450 ∧
    (handleClient initBoat [Ev.msg ⟨some 0, none, none, none, none⟩]).2.2 =
      SessionOutcome.exn ∧
    (handleClient initBoat [Ev.msg ⟨some 0, none, none, none, none⟩]).2.1 = [] ∧
    (handleClient initBoat [Ev.msg ⟨some 0, none, none, none, none⟩]).1.safran.value =
      1150 ∧
    (handleClient initBoat [Ev.msg ⟨some 0, none, none, none, none⟩]).1.hw 23 = 1150 := by
  have hW : initBoat.wellNamed := ⟨rfl, rfl, rfl, rfl⟩
  have hm := handleMsg_missing_moteur initBoat ⟨some 0, none, none, none, none⟩ 0 hW rfl rfl
  have hnone : (handleMsg initBoat ⟨some 0, none, none, none, none⟩).2 = none := by
    rw [hm]
  have hc := handleClient_msg_none initBoat ⟨some 0, none, none, none, none⟩ hnone
  refine ⟨rfl, ?_, by rw [hc], by rw [hc], ?_, ?_⟩
  · show updatePwm (updatePwm (updatePwm (updatePwm initHw safran0) moteur0)
        ecouteGv0) ecouteFoc0 23 = 1450
    rw [updatePwm_single_other _ _ 23 27 rfl (by decide)]
    rw [updatePwm_single_other _ _ 23 22 rfl (by decide)]
    rw [updatePwm_single_other _ _ 23 25 rfl (by decide)]
    rw [updatePwm_pair_left _ _ 23 24 rfl (by decide)]
    rfl
  · rw [hc, hm]
    show ((Actuator.init "safran" (PinSpec.multi [23, 24]) 1450 600 30).updateValue
        0).value = 1150
    rw [updateValue_init_value, cond_safran_zero]
  · rw [hc, hm]
    show updatePwm initBoat.hw (initBoat.safran.updateValue 0) 23 = 1150
    rw [updatePwm_pair_left _ _ 23 24 (by rw [updateValue_pin]; rfl) (by decide)]
    show ((Actuator.init "safran" (PinSpec.multi [23, 24]) 1450 600 30).updateValue
        0).value = 1150
    rw [updateValue_init_value, cond_safran_zero]

end PizSpec
